import Mathlib

/-!
Shallow embedding of the `wiki-dump` token-cache pipeline.

Source files modelled here:
* `wiki_tokenize.py` — multistream index loading, block walking,
  byte-level tokenization, tokenize checkpoint, cache-building driver.
* `wiki_train.py` — training checkpoint and the sliding-window
  training stream over the binary token cache.
* `parse-tokenize.py` — length-prefixed record IO (`save_tokens` /
  `load_tokens`) and the list-based `document_to_tokens`.

Modelling conventions:
* Python byte strings are `List Nat` with every element `< 256`.
* Files on disk are `List Nat` (their byte contents); reading at an
  offset is `List.drop`/`List.take`.
* `struct.pack`/`array.array` use little-endian byte order (the
  native order on the platforms the scripts run on).
* Python exceptions are modelled with `Except PyErr`; a generator
  that raises after yielding some items is modelled by the list of
  items it yielded plus a flag describing how it stopped.
* JSON files are modelled by `FileState`: the file is missing, its
  bytes fail to parse as JSON, or they parse to a `JVal` tree.
-/

/-- Python exception kinds raised (or caught) by the modelled code. -/
inductive PyErr where
  | jsonDecodeError
  | keyError
  | typeError
  | attributeError
  | valueError
  | structError
  deriving DecidableEq, Repr

/-- Minimal JSON value tree, the result of a successful `json.load`. -/
inductive JVal where
  | num (n : Int)
  | str (s : String)
  | bool (b : Bool)
  | null
  | arr (elems : List JVal)
  | obj (fields : List (String × JVal))

/-- State of a checkpoint file on disk: absent, present but not valid
JSON, or present and parsed to a JSON value. -/
inductive FileState where
  | missing
  | unparsable
  | parsed (j : JVal)

/-- Python dict lookup for an object built by `json.load`: with duplicate
keys the last occurrence wins, so we look the key up from the right. -/
def JVal.lookupLast (fields : List (String × JVal)) (k : String) : Option JVal :=
  (fields.filter (fun p => p.1 = k)).getLast? |>.map (·.2)

namespace WikiTokenize

/-- Sentinel token appended after each document (`EOS_TOKEN = 256`). -/
def EOS_TOKEN : Nat := 256

/-- UTF-8 bytes of a string, as numeric values: models Python
`text.encode("utf-8")` read as a sequence of ints in [0, 255]. -/
def utf8Bytes (s : String) : List Nat :=
  s.data.flatMap (fun c => (String.utf8EncodeChar c).map (·.toNat))

/-- Models `document_to_tokens` from `wiki_tokenize.py` (and the
`byte_tokenize` + append version in `parse-tokenize.py`): UTF-8 bytes
of the text, each a token in [0, 255], followed by the sentinel 256. -/
def document_to_tokens (s : String) : List Nat :=
  utf8Bytes s ++ [EOS_TOKEN]

/-- Whitespace characters stripped by Python `int()` before parsing. -/
def isSpaceChar (c : Char) : Bool :=
  c == ' ' || c == '\n' || c == '\t' || c == '\r'

/-- Strip leading and trailing whitespace from a character sequence,
as Python `int()` does to its argument before converting. -/
def stripChars (l : List Char) : List Char :=
  ((l.dropWhile isSpaceChar).reverse.dropWhile isSpaceChar).reverse

/-- Parse a nonempty all-digit character sequence as a decimal number;
`none` on an empty sequence or any non-digit character, modelling the
`ValueError` from Python `int()` (sign prefixes are not modelled: index
offsets are unsigned decimal). -/
def parseDecimal (l : List Char) : Option Nat :=
  if l = [] then none
  else
    l.foldl
      (fun acc c =>
        match acc with
        | some n => if c.isDigit then some (10 * n + (c.toNat - 48)) else none
        | none => none)
      (some 0)

/-- Models `int(line.split(":", 1)[0])` on one raw index line: the
text before the first colon, parsed as a (nonnegative) integer after
stripping surrounding whitespace, since Python `int()` ignores leading
and trailing whitespace (so the line's trailing newline is harmless);
`none` models the `ValueError` Python raises when what remains is not
numeric — in particular on a blank line, where the leading field is
`"\n"` and stripping leaves the empty sequence. -/
def parseOffset (line : String) : Option Nat :=
  parseDecimal (stripChars (line.data.takeWhile (fun c => !(c == ':'))))

/-- Models `load_multistream_index`: for each line, if the line is
truthy, parse the leading byte offset and add it to a set; finally
return the set sorted ascending. The input is the list of raw lines of
text-file iteration, each still carrying its trailing newline (except
possibly the last), so `if line:` only filters out the empty string —
a blank line is `"\n"`, which is truthy and makes `int()` raise
`ValueError`. A malformed line raises `ValueError`. -/
def load_multistream_index (lines : List String) : Except PyErr (List Nat) := do
  let offsets ← lines.foldlM
    (fun (acc : List Nat) line =>
      if line ≠ "" then
        match parseOffset line with
        | some n => pure (acc.insert n)
        | none => throw PyErr.valueError
      else
        pure acc)
    []
  pure ((offsets.dedup).mergeSort (fun a b => a ≤ b))

/-- Models `save_checkpoint` in `wiki_tokenize.py`: overwrite the
checkpoint file with `{"block_idx": block_idx}`. -/
def save_checkpoint (block_idx : Nat) : FileState :=
  FileState.parsed (JVal.obj [("block_idx", JVal.num block_idx)])

/-- Models `load_checkpoint` in `wiki_tokenize.py`. The file may be
missing (returns 0); otherwise `json.load(f)["block_idx"]` runs with no
exception handler: unparsable contents raise `JSONDecodeError`, a JSON
object without the key raises `KeyError`, and indexing a non-object by
string raises `TypeError`. -/
def load_checkpoint (st : FileState) : Except PyErr JVal :=
  match st with
  | FileState.missing => Except.ok (JVal.num 0)
  | FileState.unparsable => Except.error PyErr.jsonDecodeError
  | FileState.parsed (JVal.obj fields) =>
    match JVal.lookupLast fields "block_idx" with
    | some v => Except.ok v
    | none => Except.error PyErr.keyError
  | FileState.parsed _ => Except.error PyErr.typeError

end WikiTokenize

namespace ParseTokenize

/-- Little-endian 4-byte encoding of one `struct.pack("I", n)` value.
`struct.pack` raises for values outside [0, 2^32); callers below check
the bound and model that error explicitly. -/
def toBytesI (n : Nat) : List Nat :=
  [n % 256, n / 256 % 256, n / 256 ^ 2 % 256, n / 256 ^ 3 % 256]

/-- Decode a packed run of 4-byte little-endian unsigned ints: models
`struct.unpack(f"{length}I", data)` on `data` of length `4 * length`. -/
def unpackI : List Nat → List Nat
  | b0 :: b1 :: b2 :: b3 :: rest =>
    (b0 + 256 * b1 + 256 ^ 2 * b2 + 256 ^ 3 * b3) :: unpackI rest
  | _ => []

/-- Models `save_tokens` in `parse-tokenize.py`: write the record length
as one 32-bit value, then each token as a 32-bit value. `struct.pack`
raises `struct.error` when a value does not fit in 32 bits. -/
def save_tokens (tokens : List Nat) : Except PyErr (List Nat) :=
  if tokens.length < 2 ^ 32 ∧ ∀ t ∈ tokens, t < 2 ^ 32 then
    Except.ok (toBytesI tokens.length ++ tokens.flatMap toBytesI)
  else
    Except.error PyErr.structError

/-- Models `load_tokens` in `parse-tokenize.py` reading from the given
byte stream: read 4 bytes (empty read returns `none`, i.e. Python
`None`), unpack the length, read `4 * length` bytes and unpack them.
A short read makes `struct.unpack` raise `struct.error`. Returns the
decoded record (or `none` at end of file) and the unread rest of the
stream. -/
def load_tokens (stream : List Nat) : Except PyErr (Option (List Nat) × List Nat) :=
  let raw := stream.take 4
  if raw.length = 0 then
    Except.ok (none, stream.drop 4)
  else if raw.length ≠ 4 then
    Except.error PyErr.structError
  else
    let length := raw.headD 0 + 256 * (raw.drop 1).headD 0 +
      256 ^ 2 * (raw.drop 2).headD 0 + 256 ^ 3 * (raw.drop 3).headD 0
    let data := (stream.drop 4).take (4 * length)
    if data.length ≠ 4 * length then
      Except.error PyErr.structError
    else
      Except.ok (some (unpackI data), (stream.drop 4).drop (4 * length))

end ParseTokenize

namespace WikiTrain

/-- Window length of each training sample (`CONTEXT_LEN = 256`). -/
def CONTEXT_LEN : Nat := 256

/-- Bytes read from disk per `f.read` call (`CHUNK_SIZE = 65536 * 2`). -/
def CHUNK_SIZE : Nat := 65536 * 2

/-- Models `load_checkpoint` in `wiki_train.py`: a missing file gives
the default origin `(0, [])`; `json.load` failures (`JSONDecodeError`)
are caught and also give the default; on a parsed JSON object the two
fields are read with `dict.get` and default individually. A parsed
non-object raises `AttributeError` (`.get` on it), which the
`except (json.JSONDecodeError, KeyError)` clause does not catch. -/
def load_checkpoint (st : FileState) : Except PyErr (JVal × JVal) :=
  match st with
  | FileState.missing => Except.ok (JVal.num 0, JVal.arr [])
  | FileState.unparsable => Except.ok (JVal.num 0, JVal.arr [])
  | FileState.parsed (JVal.obj fields) =>
    Except.ok ((JVal.lookupLast fields "file_offset").getD (JVal.num 0),
      (JVal.lookupLast fields "buffer").getD (JVal.arr []))
  | FileState.parsed _ => Except.error PyErr.attributeError

/-- Models `save_checkpoint` in `wiki_train.py`: overwrite the file
with `{"file_offset": file_offset, "buffer": list(buffer)}`. -/
def save_checkpoint (file_offset : Nat) (buffer : List Nat) : FileState :=
  FileState.parsed (JVal.obj
    [("file_offset", JVal.num file_offset),
     ("buffer", JVal.arr (buffer.map (fun t => JVal.num t)))])

/-- Decode a byte string into unsigned 16-bit little-endian values:
models `array.array("H").frombytes(chunk)` after the caller has ruled
out the odd-length `ValueError`. -/
def decodeH : List Nat → List Nat
  | b0 :: b1 :: rest => (b0 + 256 * b1) :: decodeH rest
  | _ => []

/-- Result of the buffer-refill loop at the top of `training_stream`'s
`while True` body: the stream ends (`f.read` returned no bytes while
the buffer was still short), the generator raises (`frombytes` on an
odd-length chunk), or the refill succeeds leaving the file offset at
`off` and the buffer at `buf` with `CONTEXT_LEN + 1 ≤ buf.length`. -/
inductive RefillRes where
  | eos
  | err
  | ok (off : Nat) (buf : List Nat)
  deriving DecidableEq

/-- Fuel-indexed refill loop, from `wiki_train.py` lines 66-79:
`while len(buffer) < CONTEXT_LEN + 1: chunk_bytes = f.read(CHUNK_SIZE);
if not chunk_bytes: return; new_tokens = array("H");
new_tokens.frombytes(chunk_bytes); buffer.extend(new_tokens);
file_offset += len(chunk_bytes)`. The window length `ctx` and chunk
size `cs` are parameters; the source fixes them to `CONTEXT_LEN` and
`CHUNK_SIZE`. Fuel `file.length + 1` always suffices because every
iteration consumes at least one byte of the file. -/
def refillF (ctx cs : Nat) (file : List Nat) :
    Nat → Nat → List Nat → RefillRes
  | 0, _, _ => RefillRes.err
  | fuel + 1, off, buf =>
    if buf.length < ctx + 1 then
      let chunk := (file.drop off).take cs
      if chunk.length = 0 then RefillRes.eos
      else if chunk.length % 2 ≠ 0 then RefillRes.err
      else refillF ctx cs file fuel (off + chunk.length) (buf ++ decodeH chunk)
    else RefillRes.ok off buf

/-- The refill loop with enough fuel to run to completion. -/
def refill (ctx cs : Nat) (file : List Nat) (off : Nat) (buf : List Nat) :
    RefillRes :=
  refillF ctx cs file (file.length + 1) off buf

/-- One item yielded by `training_stream`: the tuple
`(x, y, file_offset, buffer)` of line 91 of `wiki_train.py`, where
`buffer` is the deque contents after the `popleft`. -/
structure Window where
  x : List Nat
  y : List Nat
  off : Nat
  buf : List Nat
  deriving DecidableEq

/-- How the training stream generator stopped: a normal `return` when
the file is exhausted (`eos`) or an uncaught exception (`err`). -/
inductive StreamEnd where
  | eos
  | err
  deriving DecidableEq

/-- Fuel-indexed body of `training_stream`'s `while True` loop: refill
the buffer, take `seq = buffer[0 .. CONTEXT_LEN]`, pop the front
element, and yield `(seq[:-1], seq[1:], file_offset, buffer)`.
Returns the list of yielded windows and how the generator stopped.
Fuel `(file.length - off) + buf.length + 1` always suffices: the
quantity `(file.length - off) + buf.length` never increases across a
refill and drops by one at each pop. -/
def runF (ctx cs : Nat) (file : List Nat) :
    Nat → Nat → List Nat → List Window × StreamEnd
  | 0, _, _ => ([], StreamEnd.err)
  | fuel + 1, off, buf =>
    match refill ctx cs file off buf with
    | RefillRes.eos => ([], StreamEnd.eos)
    | RefillRes.err => ([], StreamEnd.err)
    | RefillRes.ok off' buf' =>
      let seq := buf'.take (ctx + 1)
      let rest := runF ctx cs file fuel off' buf'.tail
      (⟨seq.dropLast, seq.tail, off', buf'.tail⟩ :: rest.1, rest.2)

/-- Models `training_stream` in `wiki_train.py`, started from file
offset `off` and reconstructed buffer `buf` (the state loaded from the
training checkpoint; the uninterrupted run starts at `(0, [])`). -/
def training_stream (ctx cs : Nat) (file : List Nat) (off : Nat)
    (buf : List Nat) : List Window × StreamEnd :=
  runF ctx cs file ((file.length - off) + buf.length + 1) off buf

end WikiTrain

namespace WikiTokenize

/-- Models the per-block decompression loop of
`stream_pages_multistream` (lines 57-67 of `wiki_tokenize.py`). The
block's raw input is abstracted as the successive results of feeding
64 KiB chunks to a fresh `BZ2Decompressor`: each element is either the
bytes that call produced or an `OSError`. The loop accumulates output
until the chunks are exhausted (decompressor eof / empty read) or a
call raises, in which case it breaks, keeping the data already
decompressed. -/
def decompressBlock : List (Except Unit (List Nat)) → List Nat
  | [] => []
  | Except.ok bs :: rest => bs ++ decompressBlock rest
  | Except.error _ :: _ => []

/-- Models `b"<mediawiki>" + data + b"</mediawiki>"` (line 70). -/
def wrapBlock (data : List Nat) : List Nat :=
  utf8Bytes "<mediawiki>" ++ data ++ utf8Bytes "</mediawiki>"

/-- One item yielded by `stream_pages_multistream`: a parsed page
element, or the `yield None` end-of-block signal. -/
inductive WalkItem (α : Type) where
  | page (p : α)
  | endOfBlock

/-- True exactly on the `yield None` end-of-block signal. -/
def WalkItem.isEndOfBlock : WalkItem α → Bool
  | WalkItem.endOfBlock => true
  | WalkItem.page _ => false

/-- Fuel-indexed body of the `for block_idx in range(start_block,
len(offsets))` loop of `stream_pages_multistream`: seek to the block
(abstracted into `feed`), decompress it, wrap it, parse it with
`ET.iterparse` (the oracle `parse` returns the page elements the
iteration yielded before finishing or hitting the swallowed
`ET.ParseError`, so a malformed block contributes a partial or empty
page list), yield each page, then yield the end-of-block signal.
`count` is the number of blocks still to process. -/
def walkFrom (parse : List Nat → List α)
    (feed : Nat → List (Except Unit (List Nat))) :
    Nat → Nat → List (WalkItem α)
  | 0, _ => []
  | count + 1, block_idx =>
    let data := decompressBlock (feed block_idx)
    let pages := parse (wrapBlock data)
    pages.map WalkItem.page ++ WalkItem.endOfBlock ::
      walkFrom parse feed count (block_idx + 1)

/-- Models `stream_pages_multistream(xml_path, offsets, start_block)`:
walk blocks `start_block` to `offsets.length - 1` in order. The dump
file itself is abstracted by `feed` (what the decompressor produces at
each block's offset) and `parse` (what `ET.iterparse` yields on the
wrapped bytes). -/
def stream_pages_multistream (parse : List Nat → List α)
    (feed : Nat → List (Except Unit (List Nat))) (offsets : List Nat)
    (start_block : Nat) : List (WalkItem α) :=
  walkFrom parse feed (offsets.length - start_block) start_block

/-- Little-endian byte pair of one `array("H")` element, as written by
`tokens.tofile(fout)`; elements are below 2^16 (tokens are ≤ 256). -/
def encodeH16 (t : Nat) : List Nat :=
  [t % 256, t / 256 % 256]

/-- Models the `for item in generator` loop of `build_token_cache`
(lines 167-183 of `wiki_tokenize.py`). `validTokens p` abbreviates the
page branch: `some tokens` when `is_valid_article(parse_page(p))`
holds, with `tokens = document_to_tokens(clean_wikitext(text))`, else
`none`. On the `None` signal the block counter is incremented and the
checkpoint is saved when the counter is a multiple of 10. Returns the
list of successively checkpointed block indices and the bytes appended
to the token cache. After the loop ends no further checkpoint is
written. -/
def build_token_cache_loop (validTokens : α → Option (List Nat)) :
    List (WalkItem α) → Nat → List Nat × List Nat
  | [], _ => ([], [])
  | WalkItem.endOfBlock :: rest, current_block_idx =>
    let next := current_block_idx + 1
    let r := build_token_cache_loop validTokens rest next
    if next % 10 = 0 then (next :: r.1, r.2) else r
  | WalkItem.page p :: rest, current_block_idx =>
    let r := build_token_cache_loop validTokens rest current_block_idx
    match validTokens p with
    | some tokens => (r.1, tokens.flatMap encodeH16 ++ r.2)
    | none => r

/-- Models `build_token_cache` from the point the generator starts:
drive `build_token_cache_loop` over the walker's items with the block
counter starting at `start_block`. -/
def build_token_cache (validTokens : α → Option (List Nat))
    (parse : List Nat → List α)
    (feed : Nat → List (Except Unit (List Nat))) (offsets : List Nat)
    (start_block : Nat) : List Nat × List Nat :=
  build_token_cache_loop validTokens
    (stream_pages_multistream parse feed offsets start_block) start_block

end WikiTokenize

namespace WikiTokenize

theorem utf8Bytes_lt_256 (s : String) : ∀ b ∈ utf8Bytes s, b < 256 := by
  intro b hb
  simp only [utf8Bytes, List.mem_flatMap, List.mem_map] at hb
  obtain ⟨c, -, u, -, rfl⟩ := hb
  exact u.toNat_lt

end WikiTokenize

/-- C2: for every text, `document_to_tokens` returns the UTF-8 bytes of
the text followed by the sentinel: its length is the UTF-8 byte length
plus one, its last element is 256, the elements before the last are
exactly the UTF-8 byte values (each below 256), and none of them is
256. -/
theorem document_to_tokens_spec (s : String) :
    (WikiTokenize.document_to_tokens s).length =
      (WikiTokenize.utf8Bytes s).length + 1 ∧
    (WikiTokenize.document_to_tokens s).getLast? = some 256 ∧
    (WikiTokenize.document_to_tokens s).dropLast = WikiTokenize.utf8Bytes s ∧
    ((WikiTokenize.document_to_tokens s).dropLast.all (fun b => b < 256) = true ∧
      256 ∉ (WikiTokenize.document_to_tokens s).dropLast) := by
  have hdrop : (WikiTokenize.document_to_tokens s).dropLast =
      WikiTokenize.utf8Bytes s := by
    simp [WikiTokenize.document_to_tokens, List.dropLast_concat]
  refine ⟨by simp [WikiTokenize.document_to_tokens], ?_, hdrop, ?_, ?_⟩
  · simp [WikiTokenize.document_to_tokens, WikiTokenize.EOS_TOKEN,
      List.getLast?_concat]
  · rw [hdrop]
    simp only [List.all_eq_true, decide_eq_true_eq]
    exact WikiTokenize.utf8Bytes_lt_256 s
  · rw [hdrop]
    intro hmem
    exact absurd (WikiTokenize.utf8Bytes_lt_256 s 256 hmem) (by norm_num)

/-- C3 counterexample: on an index file with no offset lines at all,
`load_multistream_index` returns the empty index as a success value
instead of failing with a FormatError. -/
theorem load_multistream_index_empty_ok :
    WikiTokenize.load_multistream_index [] = Except.ok [] := by
  simp [WikiTokenize.load_multistream_index]
  rfl

/-- C3 amended: `load_multistream_index` raises no FormatError; on a
truly empty index file (no lines at all) it returns the empty offset
list as a success value, while a blank line — which file iteration
yields as a truthy newline string — raises a `ValueError` from
`int()`. -/
theorem load_multistream_index_empty_behavior :
    WikiTokenize.load_multistream_index [] = Except.ok [] ∧
    WikiTokenize.load_multistream_index ["\n"] =
      Except.error PyErr.valueError := by
  constructor
  · simp [WikiTokenize.load_multistream_index]
    rfl
  · simp [WikiTokenize.load_multistream_index, WikiTokenize.parseOffset]
    rfl

/-- C4 counterexample: on a checkpoint file whose contents are corrupt
(not valid JSON), the tokenization `load_checkpoint` raises
`json.JSONDecodeError` instead of returning the default origin 0. -/
theorem load_checkpoint_tokenize_corrupt_raises :
    WikiTokenize.load_checkpoint FileState.unparsable =
      Except.error PyErr.jsonDecodeError := rfl

/-- C4 amended: a missing checkpoint file makes both loaders return
their default origin (0, resp. (0, empty buffer)) without error, and
the training loader also returns its default on corrupt (unparsable)
contents; the tokenization loader, however, raises a JSONDecodeError on
corrupt contents rather than defaulting. -/
theorem load_checkpoint_default_origin :
    WikiTokenize.load_checkpoint FileState.missing = Except.ok (JVal.num 0) ∧
    WikiTrain.load_checkpoint FileState.missing =
      Except.ok (JVal.num 0, JVal.arr []) ∧
    WikiTrain.load_checkpoint FileState.unparsable =
      Except.ok (JVal.num 0, JVal.arr []) ∧
    WikiTokenize.load_checkpoint FileState.unparsable =
      Except.error PyErr.jsonDecodeError :=
  ⟨rfl, rfl, rfl, rfl⟩


namespace ParseTokenize

theorem toBytesI_length (n : Nat) : (toBytesI n).length = 4 := rfl

theorem flatMap_toBytesI_length (tokens : List Nat) :
    (tokens.flatMap toBytesI).length = 4 * tokens.length := by
  induction tokens with
  | nil => rfl
  | cons t rest ih =>
    simp only [List.flatMap_cons, List.length_append, ih, toBytesI_length,
      List.length_cons]
    ring

theorem flatMap_toBytesI_cons (t : Nat) (rest : List Nat) :
    (t :: rest).flatMap toBytesI =
      t % 256 :: t / 256 % 256 :: t / 256 ^ 2 % 256 :: t / 256 ^ 3 % 256 ::
        rest.flatMap toBytesI := by
  simp [toBytesI]

theorem unpackI_flatMap (tokens : List Nat)
    (h : ∀ t ∈ tokens, t < 2 ^ 32) :
    unpackI (tokens.flatMap toBytesI) = tokens := by
  induction tokens with
  | nil => rfl
  | cons t rest ih =>
    have ht : t < 2 ^ 32 := h t (List.mem_cons_self t rest)
    rw [flatMap_toBytesI_cons, unpackI,
      ih (fun x hx => h x (List.mem_cons_of_mem _ hx))]
    congr 1
    omega

end ParseTokenize

/-- C8: writing a token record whose length and values fit in the
32-bit element width with `save_tokens`, then reading back from the
same position with `load_tokens` (with any bytes following), succeeds
and yields the identical ordered token sequence, leaving the following
bytes unread. -/
theorem save_tokens_load_tokens_roundtrip (tokens rest : List Nat)
    (hlen : tokens.length < 2 ^ 32) (hval : ∀ t ∈ tokens, t < 2 ^ 32) :
    ∃ bytes, ParseTokenize.save_tokens tokens = Except.ok bytes ∧
      ParseTokenize.load_tokens (bytes ++ rest) =
        Except.ok (some tokens, rest) := by
  refine ⟨ParseTokenize.toBytesI tokens.length ++
      tokens.flatMap ParseTokenize.toBytesI, ?_, ?_⟩
  · unfold ParseTokenize.save_tokens
    rw [if_pos ⟨hlen, hval⟩]
  · have hb : (tokens.flatMap ParseTokenize.toBytesI).length =
        4 * tokens.length := ParseTokenize.flatMap_toBytesI_length tokens
    have h1 : ((ParseTokenize.toBytesI tokens.length ++
        tokens.flatMap ParseTokenize.toBytesI) ++ rest).take 4 =
        ParseTokenize.toBytesI tokens.length := by
      rw [List.append_assoc]
      exact List.take_left' (ParseTokenize.toBytesI_length tokens.length)
    have h2 : ((ParseTokenize.toBytesI tokens.length ++
        tokens.flatMap ParseTokenize.toBytesI) ++ rest).drop 4 =
        tokens.flatMap ParseTokenize.toBytesI ++ rest := by
      rw [List.append_assoc]
      exact List.drop_left' (ParseTokenize.toBytesI_length tokens.length)
    have hlen4 : (ParseTokenize.toBytesI tokens.length).length = 4 := rfl
    have hh0 : (ParseTokenize.toBytesI tokens.length).headD 0 =
        tokens.length % 256 := rfl
    have hh1 : ((ParseTokenize.toBytesI tokens.length).drop 1).headD 0 =
        tokens.length / 256 % 256 := rfl
    have hh2 : ((ParseTokenize.toBytesI tokens.length).drop 2).headD 0 =
        tokens.length / 256 ^ 2 % 256 := rfl
    have hh3 : ((ParseTokenize.toBytesI tokens.length).drop 3).headD 0 =
        tokens.length / 256 ^ 3 % 256 := rfl
    have hdec : tokens.length % 256 + 256 * (tokens.length / 256 % 256) +
        256 ^ 2 * (tokens.length / 256 ^ 2 % 256) +
        256 ^ 3 * (tokens.length / 256 ^ 3 % 256) = tokens.length := by
      omega
    have h3 : (tokens.flatMap ParseTokenize.toBytesI ++ rest).take
        (4 * tokens.length) = tokens.flatMap ParseTokenize.toBytesI :=
      List.take_left' hb
    have h4 : (tokens.flatMap ParseTokenize.toBytesI ++ rest).drop
        (4 * tokens.length) = rest :=
      List.drop_left' hb
    simp only [ParseTokenize.load_tokens, h1, h2, hlen4, hh0, hh1, hh2, hh3]
    rw [hdec]
    simp only [h3, h4, hb]
    simp [ParseTokenize.unpackI_flatMap tokens hval]

/-- C8 witness: the round trip at the concrete record `[65, 256]` with
the byte `7` following it in the stream. -/
theorem save_tokens_load_tokens_roundtrip_witness :
    ∃ bytes, ParseTokenize.save_tokens [65, 256] = Except.ok bytes ∧
      ParseTokenize.load_tokens (bytes ++ [7]) =
        Except.ok (some [65, 256], [7]) :=
  save_tokens_load_tokens_roundtrip [65, 256] [7] (by norm_num)
    (by intro t ht; fin_cases ht <;> norm_num)

namespace WikiTokenize

theorem walkFrom_flatMap (parse : List Nat → List α)
    (feed : Nat → List (Except Unit (List Nat))) :
    ∀ count block_idx, walkFrom parse feed count block_idx =
      (List.range' block_idx count).flatMap
        (fun i => (parse (wrapBlock (decompressBlock (feed i)))).map
          WalkItem.page ++ [WalkItem.endOfBlock]) := by
  intro count
  induction count with
  | zero => intro block_idx; rfl
  | succ c ih =>
    intro block_idx
    rw [List.range'_succ]
    simp only [List.flatMap_cons, walkFrom, ih (block_idx + 1)]
    simp

theorem countP_isEndOfBlock_page_map (pages : List α) :
    (pages.map WalkItem.page).countP WalkItem.isEndOfBlock = 0 := by
  induction pages with
  | nil => rfl
  | cons p rest ih => simp [List.countP_cons, WalkItem.isEndOfBlock, ih]

theorem walkFrom_countP (parse : List Nat → List α)
    (feed : Nat → List (Except Unit (List Nat))) :
    ∀ count block_idx,
      (walkFrom parse feed count block_idx).countP WalkItem.isEndOfBlock =
        count := by
  intro count
  induction count with
  | zero => intro block_idx; rfl
  | succ c ih =>
    intro block_idx
    simp only [walkFrom, List.countP_append, List.countP_cons,
      countP_isEndOfBlock_page_map, ih (block_idx + 1)]
    simp [WalkItem.isEndOfBlock]

theorem decompressBlock_truncates (pre : List (List Nat))
    (rest : List (Except Unit (List Nat))) :
    decompressBlock (pre.map Except.ok ++ Except.error () :: rest) =
      pre.flatten := by
  induction pre with
  | nil => rfl
  | cons bs pre ih => simp [decompressBlock, ih]

end WikiTokenize

/-- C9: the block walker's output decomposes block by block: for each
block index from `start_block` up to the end of the offset list, it
yields the pages parsed from that block's (possibly truncated)
decompressed data and then exactly one end-of-block signal, before any
item of the next block; the number of end-of-block signals equals the
number of blocks walked. A decompression error mid-block truncates that
block's data at the failure point, keeping the chunks decompressed
before it (which are still wrapped and parsed), and the walk proceeds
to the end-of-block signal and the next block all the same. -/
theorem stream_pages_end_of_block (parse : List Nat → List α)
    (feed : Nat → List (Except Unit (List Nat))) (offsets : List Nat)
    (start_block : Nat) :
    WikiTokenize.stream_pages_multistream parse feed offsets start_block =
      (List.range' start_block (offsets.length - start_block)).flatMap
        (fun i => (parse (WikiTokenize.wrapBlock
            (WikiTokenize.decompressBlock (feed i)))).map
          WikiTokenize.WalkItem.page ++ [WikiTokenize.WalkItem.endOfBlock]) ∧
    (WikiTokenize.stream_pages_multistream parse feed offsets
        start_block).countP WikiTokenize.WalkItem.isEndOfBlock =
      offsets.length - start_block ∧
    ∀ (pre : List (List Nat)) (rest : List (Except Unit (List Nat))),
      WikiTokenize.decompressBlock
          (pre.map Except.ok ++ Except.error () :: rest) = pre.flatten :=
  ⟨WikiTokenize.walkFrom_flatMap parse feed _ start_block,
    WikiTokenize.walkFrom_countP parse feed _ start_block,
    fun pre rest => WikiTokenize.decompressBlock_truncates pre rest⟩

/-- C5 counterexample: a full pass over a one-block index that
completes normally writes no checkpoint at all — in particular none on
normal completion (the saved-checkpoint trace is empty). -/
theorem build_token_cache_completion_no_save :
    (WikiTokenize.build_token_cache (fun _ : Unit => none)
      (fun _ => []) (fun _ => []) [0] 0).1 = [] := rfl

/-- C5 amended: the tokenization driver writes the checkpoint exactly
at those completed blocks whose incremented absolute block counter is a
multiple of 10 (the saved values are the multiples of 10 in
`(start_block, offsets.length]`); it writes no additional checkpoint on
normal completion of the pass. -/
theorem build_token_cache_checkpoint_saves (validTokens : α → Option (List Nat))
    (parse : List Nat → List α)
    (feed : Nat → List (Except Unit (List Nat))) (offsets : List Nat)
    (start_block : Nat) :
    (WikiTokenize.build_token_cache validTokens parse feed offsets
        start_block).1 =
      (List.range' (start_block + 1) (offsets.length - start_block)).filter
        (fun i => i % 10 == 0) := by
  have hloop : ∀ (items : List (WikiTokenize.WalkItem α)) (cur : Nat),
      (WikiTokenize.build_token_cache_loop validTokens items cur).1 =
        (List.range' (cur + 1)
          (items.countP WikiTokenize.WalkItem.isEndOfBlock)).filter
          (fun i => i % 10 == 0) := by
    intro items
    induction items with
    | nil => intro cur; rfl
    | cons item rest ih =>
      intro cur
      cases item with
      | endOfBlock =>
        simp only [WikiTokenize.build_token_cache_loop, List.countP_cons,
          WikiTokenize.WalkItem.isEndOfBlock]
        by_cases h10 : (cur + 1) % 10 = 0
        · simp [h10, List.range'_succ, List.filter_cons, ih (cur + 1)]
        · simp [h10, List.range'_succ, List.filter_cons, ih (cur + 1)]
      | page p =>
        simp only [WikiTokenize.build_token_cache_loop]
        cases validTokens p <;>
          simp [ih cur, List.countP_cons, WikiTokenize.WalkItem.isEndOfBlock]
  rw [WikiTokenize.build_token_cache, hloop]
  simp only [WikiTokenize.stream_pages_multistream]
  rw [WikiTokenize.walkFrom_countP parse feed]

namespace WikiTrain

theorem decodeH_length : ∀ l : List Nat, (decodeH l).length = l.length / 2
  | [] => by simp [decodeH]
  | [_] => by simp [decodeH]
  | _ :: _ :: rest => by
    simp only [decodeH, List.length_cons, decodeH_length rest]
    omega

theorem chunk_length_le (cs : Nat) (file : List Nat) (off : Nat) :
    ((file.drop off).take cs).length ≤ file.length - off := by
  simp only [List.length_take, List.length_drop]
  omega

theorem refillF_congr (ctx cs : Nat) (file : List Nat) :
    ∀ f1 f2 off buf, file.length - off < f1 → file.length - off < f2 →
      refillF ctx cs file f1 off buf = refillF ctx cs file f2 off buf := by
  intro f1
  induction f1 with
  | zero => intro f2 off buf h1 h2; exact absurd h1 (Nat.not_lt_zero _)
  | succ f1 ih =>
    intro f2 off buf h1 h2
    cases f2 with
    | zero => exact absurd h2 (Nat.not_lt_zero _)
    | succ f2 =>
      simp only [refillF]
      by_cases hlen : buf.length < ctx + 1
      · rw [if_pos hlen, if_pos hlen]
        by_cases hc0 : ((file.drop off).take cs).length = 0
        · rw [if_pos hc0, if_pos hc0]
        · rw [if_neg hc0, if_neg hc0]
          by_cases hodd : ((file.drop off).take cs).length % 2 ≠ 0
          · rw [if_pos hodd, if_pos hodd]
          · rw [if_neg hodd, if_neg hodd]
            have hcle := chunk_length_le cs file off
            exact ih f2 (off + ((file.drop off).take cs).length) _
              (by omega) (by omega)
      · rw [if_neg hlen, if_neg hlen]

theorem refillF_ok_length (ctx cs : Nat) (file : List Nat) :
    ∀ fuel off buf off' buf',
      refillF ctx cs file fuel off buf = RefillRes.ok off' buf' →
      ctx + 1 ≤ buf'.length := by
  intro fuel
  induction fuel with
  | zero => intro off buf off' buf' h; simp only [refillF] at h; cases h
  | succ fuel ih =>
    intro off buf off' buf' h
    simp only [refillF] at h
    by_cases hlen : buf.length < ctx + 1
    · rw [if_pos hlen] at h
      by_cases hc0 : ((file.drop off).take cs).length = 0
      · rw [if_pos hc0] at h; cases h
      · rw [if_neg hc0] at h
        by_cases hodd : ((file.drop off).take cs).length % 2 ≠ 0
        · rw [if_pos hodd] at h; cases h
        · rw [if_neg hodd] at h
          exact ih _ _ _ _ h
    · rw [if_neg hlen] at h
      injection h with h1 h2
      subst h2
      omega

theorem refillF_ok_measure (ctx cs : Nat) (file : List Nat) :
    ∀ fuel off buf off' buf',
      refillF ctx cs file fuel off buf = RefillRes.ok off' buf' →
      file.length - off' + buf'.length ≤ file.length - off + buf.length ∧
        off ≤ off' := by
  intro fuel
  induction fuel with
  | zero => intro off buf off' buf' h; simp only [refillF] at h; cases h
  | succ fuel ih =>
    intro off buf off' buf' h
    simp only [refillF] at h
    by_cases hlen : buf.length < ctx + 1
    · rw [if_pos hlen] at h
      by_cases hc0 : ((file.drop off).take cs).length = 0
      · rw [if_pos hc0] at h; cases h
      · rw [if_neg hc0] at h
        by_cases hodd : ((file.drop off).take cs).length % 2 ≠ 0
        · rw [if_pos hodd] at h; cases h
        · rw [if_neg hodd] at h
          have hstep := ih _ _ _ _ h
          have hcle := chunk_length_le cs file off
          have hdec : (decodeH ((file.drop off).take cs)).length =
              ((file.drop off).take cs).length / 2 :=
            decodeH_length _
          rw [List.length_append, hdec] at hstep
          omega
    · rw [if_neg hlen] at h
      injection h with h1 h2
      subst h1
      subst h2
      omega

end WikiTrain

namespace WikiTrain

theorem refill_ok_length (ctx cs : Nat) (file : List Nat)
    (off : Nat) (buf : List Nat) (off' : Nat) (buf' : List Nat)
    (h : refill ctx cs file off buf = RefillRes.ok off' buf') :
    ctx + 1 ≤ buf'.length :=
  refillF_ok_length ctx cs file (file.length + 1) off buf off' buf' h

theorem refill_ok_measure (ctx cs : Nat) (file : List Nat)
    (off : Nat) (buf : List Nat) (off' : Nat) (buf' : List Nat)
    (h : refill ctx cs file off buf = RefillRes.ok off' buf') :
    file.length - off' + buf'.length ≤ file.length - off + buf.length ∧
      off ≤ off' :=
  refillF_ok_measure ctx cs file (file.length + 1) off buf off' buf' h

theorem runF_congr (ctx cs : Nat) (file : List Nat) :
    ∀ f1 f2 off buf, file.length - off + buf.length < f1 →
      file.length - off + buf.length < f2 →
      runF ctx cs file f1 off buf = runF ctx cs file f2 off buf := by
  intro f1
  induction f1 with
  | zero => intro f2 off buf h1 h2; exact absurd h1 (Nat.not_lt_zero _)
  | succ f1 ih =>
    intro f2 off buf h1 h2
    cases f2 with
    | zero => exact absurd h2 (Nat.not_lt_zero _)
    | succ f2 =>
      simp only [runF]
      cases href : refill ctx cs file off buf with
      | eos => rfl
      | err => rfl
      | ok off' buf' =>
        have hlen := refill_ok_length ctx cs file off buf off' buf' href
        have hmeas := refill_ok_measure ctx cs file off buf off' buf' href
        have htail : buf'.tail.length = buf'.length - 1 := List.length_tail _
        dsimp only
        rw [ih f2 off' buf'.tail (by omega) (by omega)]

theorem training_stream_eq (ctx cs : Nat) (file : List Nat) (off : Nat)
    (buf : List Nat) :
    training_stream ctx cs file off buf =
      match refill ctx cs file off buf with
      | RefillRes.eos => ([], StreamEnd.eos)
      | RefillRes.err => ([], StreamEnd.err)
      | RefillRes.ok off' buf' =>
        (⟨(buf'.take (ctx + 1)).dropLast, (buf'.take (ctx + 1)).tail, off',
            buf'.tail⟩ :: (training_stream ctx cs file off' buf'.tail).1,
          (training_stream ctx cs file off' buf'.tail).2) := by
  have hts : training_stream ctx cs file off buf =
      runF ctx cs file (file.length - off + buf.length + 1) off buf := rfl
  cases href : refill ctx cs file off buf with
  | eos => rw [hts]; simp only [runF, href]
  | err => rw [hts]; simp only [runF, href]
  | ok off' buf' =>
    rw [hts]
    simp only [runF, href]
    have hlen := refill_ok_length ctx cs file off buf off' buf' href
    have hmeas := refill_ok_measure ctx cs file off buf off' buf' href
    have htail : buf'.tail.length = buf'.length - 1 := List.length_tail _
    have hr : runF ctx cs file (file.length - off + buf.length) off' buf'.tail =
        runF ctx cs file (file.length - off' + buf'.tail.length + 1) off'
          buf'.tail :=
      runF_congr ctx cs file _ _ off' buf'.tail (by omega) (by omega)
    rw [hr]
    rfl

end WikiTrain

namespace WikiTrain

theorem training_stream_resume_suffix (ctx cs : Nat) (file : List Nat) :
    ∀ n off buf w, (training_stream ctx cs file off buf).1[n]? = some w →
      training_stream ctx cs file w.off w.buf =
        ((training_stream ctx cs file off buf).1.drop (n + 1),
          (training_stream ctx cs file off buf).2) := by
  intro n
  induction n with
  | zero =>
    intro off buf w h
    rw [training_stream_eq ctx cs file off buf] at h
    cases href : refill ctx cs file off buf with
    | eos => rw [href] at h; simp at h
    | err => rw [href] at h; simp at h
    | ok off' buf' =>
      rw [href] at h
      dsimp only at h
      simp only [List.getElem?_cons_zero, Option.some.injEq] at h
      subst h
      rw [training_stream_eq ctx cs file off buf, href]
      dsimp only
      rw [List.drop_succ_cons, List.drop_zero]
  | succ n ih =>
    intro off buf w h
    rw [training_stream_eq ctx cs file off buf] at h
    cases href : refill ctx cs file off buf with
    | eos => rw [href] at h; simp at h
    | err => rw [href] at h; simp at h
    | ok off' buf' =>
      rw [href] at h
      dsimp only at h
      rw [List.getElem?_cons_succ] at h
      rw [training_stream_eq ctx cs file off buf, href]
      dsimp only
      rw [List.drop_succ_cons]
      exact ih off' buf'.tail w h

theorem load_save_checkpoint_train (off : Nat) (buf : List Nat) :
    load_checkpoint (save_checkpoint off buf) =
      Except.ok (JVal.num off, JVal.arr (buf.map (fun t => JVal.num t))) := by
  simp [load_checkpoint, save_checkpoint, JVal.lookupLast]

end WikiTrain

/-- C1: for every cache file and every point in the uninterrupted window
sequence (the run from cursor 0 with an empty buffer), the
`(cursorBytes, buffer)` pair yielded at that point survives the
checkpoint JSON round trip exactly (saving with `save_checkpoint` and
loading with `load_checkpoint` reproduces the cursor and the full
buffer contents), and restarting `training_stream` from that state
yields exactly the remaining suffix of the uninterrupted sequence of
`(input, target)` windows, ending the same way. Stated for arbitrary
window length `ctx` and chunk size `cs` (the source fixes them to
`CONTEXT_LEN` and `CHUNK_SIZE`). -/
theorem train_resumption_equivalence (ctx cs : Nat) (file : List Nat)
    (n : Nat) (w : WikiTrain.Window)
    (h : (WikiTrain.training_stream ctx cs file 0 []).1[n]? = some w) :
    WikiTrain.load_checkpoint (WikiTrain.save_checkpoint w.off w.buf) =
      Except.ok (JVal.num w.off, JVal.arr (w.buf.map (fun t => JVal.num t))) ∧
    WikiTrain.training_stream ctx cs file w.off w.buf =
      ((WikiTrain.training_stream ctx cs file 0 []).1.drop (n + 1),
        (WikiTrain.training_stream ctx cs file 0 []).2) :=
  ⟨WikiTrain.load_save_checkpoint_train w.off w.buf,
    WikiTrain.training_stream_resume_suffix ctx cs file n 0 [] w h⟩

/-- C1 witness: a 3-token cache (tokens 5, 6, 7) with window length 1
and chunk size 2; the first yielded window checkpoints at cursor 4 with
buffer `[6]`, and resuming there gives the rest of the run. -/
theorem train_resumption_equivalence_witness :
    (WikiTrain.training_stream 1 2 [5, 0, 6, 0, 7, 0] 0 []).1[0]? =
      some (WikiTrain.Window.mk [5] [6] 4 [6]) ∧
    (WikiTrain.load_checkpoint (WikiTrain.save_checkpoint 4 [6]) =
      Except.ok (JVal.num 4, JVal.arr ([6].map (fun t => JVal.num t))) ∧
    WikiTrain.training_stream 1 2 [5, 0, 6, 0, 7, 0] 4 [6] =
      ((WikiTrain.training_stream 1 2 [5, 0, 6, 0, 7, 0] 0 []).1.drop (0 + 1),
        (WikiTrain.training_stream 1 2 [5, 0, 6, 0, 7, 0] 0 []).2)) :=
  ⟨by decide,
    train_resumption_equivalence 1 2 [5, 0, 6, 0, 7, 0] 0
      (WikiTrain.Window.mk [5] [6] 4 [6]) (by decide)⟩

/-- C7: whenever a `next()` call of the sliding-window reader emits a
window (that is, the refill loop succeeds, leaving the buffer at
`buf'`), the buffer immediately before emission holds at least
`ctx + 1` tokens; the emitted window carries the buffer with exactly
the one front element removed (`buf'.tail`), so net of the tokens
appended during the refill step the buffer length decreases by exactly
one across the call. -/
theorem sliding_window_buffer_invariant (ctx cs : Nat) (file : List Nat)
    (off : Nat) (buf : List Nat) (off' : Nat) (buf' : List Nat)
    (h : WikiTrain.refill ctx cs file off buf = WikiTrain.RefillRes.ok off' buf') :
    ctx + 1 ≤ buf'.length ∧
    (WikiTrain.training_stream ctx cs file off buf).1.head? =
      some (WikiTrain.Window.mk (buf'.take (ctx + 1)).dropLast
        (buf'.take (ctx + 1)).tail off' buf'.tail) ∧
    buf'.tail.length + 1 = buf'.length := by
  have hlen := WikiTrain.refill_ok_length ctx cs file off buf off' buf' h
  refine ⟨hlen, ?_, ?_⟩
  · rw [WikiTrain.training_stream_eq, h]
    rfl
  · rw [List.length_tail]
    omega

/-- C7 witness: with window length 1 and chunk size 2 on the 3-token
cache, the first refill succeeds with buffer `[5, 6]` and the emitted
window carries buffer `[6]`. -/
theorem sliding_window_buffer_invariant_witness :
    WikiTrain.refill 1 2 [5, 0, 6, 0, 7, 0] 0 [] =
      WikiTrain.RefillRes.ok 4 [5, 6] ∧
    (1 + 1 ≤ ([5, 6] : List Nat).length ∧
    (WikiTrain.training_stream 1 2 [5, 0, 6, 0, 7, 0] 0 []).1.head? =
      some (WikiTrain.Window.mk (([5, 6] : List Nat).take (1 + 1)).dropLast
        (([5, 6] : List Nat).take (1 + 1)).tail 4 ([5, 6] : List Nat).tail) ∧
    ([5, 6] : List Nat).tail.length + 1 = ([5, 6] : List Nat).length) :=
  ⟨by decide,
    sliding_window_buffer_invariant 1 2 [5, 0, 6, 0, 7, 0] 0 [] 4 [5, 6]
      (by decide)⟩

namespace WikiTrain

theorem refillF_even (ctx cs : Nat) (file : List Nat)
    (hcs : cs % 2 = 0) (hfile : file.length % 2 = 0) :
    ∀ fuel off buf, off % 2 = 0 → file.length - off < fuel →
      refillF ctx cs file fuel off buf ≠ RefillRes.err ∧
      ∀ off' buf', refillF ctx cs file fuel off buf = RefillRes.ok off' buf' →
        off' % 2 = 0 := by
  intro fuel
  induction fuel with
  | zero => intro off buf hoff hlt; exact absurd hlt (Nat.not_lt_zero _)
  | succ fuel ih =>
    intro off buf hoff hlt
    have hchunk : ((file.drop off).take cs).length % 2 = 0 := by
      simp only [List.length_take, List.length_drop]
      rcases Nat.le_total cs (file.length - off) with hle | hle
      · rw [Nat.min_eq_left hle]
        exact hcs
      · rw [Nat.min_eq_right hle]
        omega
    have hcle := chunk_length_le cs file off
    constructor
    · intro habs
      simp only [refillF] at habs
      by_cases hblen : buf.length < ctx + 1
      · rw [if_pos hblen] at habs
        by_cases hc0 : ((file.drop off).take cs).length = 0
        · rw [if_pos hc0] at habs
          cases habs
        · rw [if_neg hc0,
            if_neg (by omega : ¬((file.drop off).take cs).length % 2 ≠ 0)]
            at habs
          exact (ih (off + ((file.drop off).take cs).length) _
            (by omega) (by omega)).1 habs
      · rw [if_neg hblen] at habs
        cases habs
    · intro off' buf' hok
      simp only [refillF] at hok
      by_cases hblen : buf.length < ctx + 1
      · rw [if_pos hblen] at hok
        by_cases hc0 : ((file.drop off).take cs).length = 0
        · rw [if_pos hc0] at hok
          cases hok
        · rw [if_neg hc0,
            if_neg (by omega : ¬((file.drop off).take cs).length % 2 ≠ 0)]
            at hok
          exact (ih (off + ((file.drop off).take cs).length) _
            (by omega) (by omega)).2 off' buf' hok
      · rw [if_neg hblen] at hok
        injection hok with h1 h2
        subst h1
        exact hoff

theorem runF_even (ctx cs : Nat) (file : List Nat)
    (hcs : cs % 2 = 0) (hfile : file.length % 2 = 0) :
    ∀ fuel off buf, off % 2 = 0 →
      file.length - off + buf.length < fuel →
      (runF ctx cs file fuel off buf).2 ≠ StreamEnd.err ∧
      ∀ w ∈ (runF ctx cs file fuel off buf).1, w.off % 2 = 0 := by
  intro fuel
  induction fuel with
  | zero => intro off buf hoff hlt; exact absurd hlt (Nat.not_lt_zero _)
  | succ fuel ih =>
    intro off buf hoff hlt
    simp only [runF]
    cases href : refill ctx cs file off buf with
    | eos => exact ⟨by simp, by simp⟩
    | err =>
      exact absurd href
        ((refillF_even ctx cs file hcs hfile (file.length + 1) off buf hoff
          (by omega)).1)
    | ok off' buf' =>
      have hoff' := (refillF_even ctx cs file hcs hfile (file.length + 1)
        off buf hoff (by omega)).2 off' buf' href
      have hlen := refill_ok_length ctx cs file off buf off' buf' href
      have hmeas := refill_ok_measure ctx cs file off buf off' buf' href
      have htail : buf'.tail.length = buf'.length - 1 := List.length_tail _
      have hrec := ih off' buf'.tail hoff' (by omega)
      dsimp only
      refine ⟨hrec.1, ?_⟩
      intro w hw
      rcases List.mem_cons.mp hw with rfl | hw
      · exact hoff'
      · exact hrec.2 w hw

end WikiTrain

namespace WikiTokenize

theorem flatMap_encodeH16_length (tokens : List Nat) :
    (tokens.flatMap encodeH16).length = 2 * tokens.length := by
  induction tokens with
  | nil => rfl
  | cons t rest ih =>
    simp only [List.flatMap_cons, List.length_append, ih, encodeH16,
      List.length_cons, List.length_nil]
    omega

theorem build_token_cache_loop_even (validTokens : β → Option (List Nat)) :
    ∀ (items : List (WalkItem β)) (cur : Nat),
      (build_token_cache_loop validTokens items cur).2.length % 2 = 0 := by
  intro items
  induction items with
  | nil => intro cur; rfl
  | cons item rest ih =>
    intro cur
    cases item with
    | endOfBlock =>
      simp only [build_token_cache_loop]
      by_cases h10 : (cur + 1) % 10 = 0
      · rw [if_pos h10]
        exact ih (cur + 1)
      · rw [if_neg h10]
        exact ih (cur + 1)
    | page p =>
      simp only [build_token_cache_loop]
      cases hv : validTokens p with
      | none => exact ih cur
      | some tokens =>
        dsimp only
        rw [List.length_append, flatMap_encodeH16_length]
        have := ih cur
        omega

end WikiTokenize

/-- C10: when the reader starts from an even byte cursor on a cache
file of even byte length, decoding never fails — the stream never ends
with the `frombytes` error — and the cursor yielded with every window
stays even (each chunk read has even length since `CHUNK_SIZE` is
even); moreover the precondition holds for caches written by the
tokenizer, since `build_token_cache` appends whole 16-bit elements and
therefore always an even number of bytes. -/
theorem training_stream_even_cursor_safety (ctx : Nat) (file : List Nat)
    (off : Nat) (buf : List Nat)
    (hfile : file.length % 2 = 0) (hoff : off % 2 = 0) :
    ((WikiTrain.training_stream ctx WikiTrain.CHUNK_SIZE file off buf).2 ≠
        WikiTrain.StreamEnd.err ∧
      ∀ w ∈ (WikiTrain.training_stream ctx WikiTrain.CHUNK_SIZE file off buf).1,
        w.off % 2 = 0) ∧
    ∀ (β : Type) (validTokens : β → Option (List Nat))
      (items : List (WikiTokenize.WalkItem β)) (start : Nat),
      (WikiTokenize.build_token_cache_loop validTokens items
        start).2.length % 2 = 0 := by
  constructor
  · exact WikiTrain.runF_even ctx WikiTrain.CHUNK_SIZE file
      (by norm_num [WikiTrain.CHUNK_SIZE]) hfile
      (file.length - off + buf.length + 1) off buf hoff
      (Nat.lt_succ_self _)
  · intro β validTokens items start
    exact WikiTokenize.build_token_cache_loop_even validTokens items start

/-- C10 witness: the one-token cache `[5, 0]` read from cursor 0. -/
theorem training_stream_even_cursor_safety_witness :
    (([5, 0] : List Nat).length % 2 = 0 ∧ (0 : Nat) % 2 = 0) ∧
    (((WikiTrain.training_stream 1 WikiTrain.CHUNK_SIZE [5, 0] 0 []).2 ≠
        WikiTrain.StreamEnd.err ∧
      ∀ w ∈ (WikiTrain.training_stream 1 WikiTrain.CHUNK_SIZE [5, 0] 0 []).1,
        w.off % 2 = 0) ∧
    ∀ (β : Type) (validTokens : β → Option (List Nat))
      (items : List (WikiTokenize.WalkItem β)) (start : Nat),
      (WikiTokenize.build_token_cache_loop validTokens items
        start).2.length % 2 = 0) :=
  ⟨⟨rfl, rfl⟩, training_stream_even_cursor_safety 1 [5, 0] 0 [] rfl rfl⟩

/-- C6: with window length 4 and the cache holding exactly the 16-bit
tokens 10, 20, 30, 40, 50, 60, 256 (bytes written little-endian),
starting from the default origin the reader emits exactly the three
windows `([10,20,30,40],[20,30,40,50])`, `([20,30,40,50],[30,40,50,60])`
and `([30,40,50,60],[40,50,60,256])` in that order, and the stream then
ends normally (end of stream, not an error). -/
theorem training_stream_context4_example :
    ((WikiTrain.training_stream 4 WikiTrain.CHUNK_SIZE
        [10, 0, 20, 0, 30, 0, 40, 0, 50, 0, 60, 0, 0, 1] 0 []).1.map
      (fun w => (w.x, w.y)) =
      [([10, 20, 30, 40], [20, 30, 40, 50]),
       ([20, 30, 40, 50], [30, 40, 50, 60]),
       ([30, 40, 50, 60], [40, 50, 60, 256])]) ∧
    (WikiTrain.training_stream 4 WikiTrain.CHUNK_SIZE
        [10, 0, 20, 0, 30, 0, 40, 0, 50, 0, 60, 0, 0, 1] 0 []).2 =
      WikiTrain.StreamEnd.eos := by
  decide
